import Mathlib

/-!
Verification of the `dunosaurs/color` library (src/mod.ts) against its
natural-language specification.

The library manipulates colors stored as a list of numeric channels, a
color-space tag and an alpha (transparency) value.  JavaScript numbers are
modelled as rationals (`ℚ`): every arithmetic operation the library performs
on the inputs appearing in the verified statements is exact in double
precision, so the rational model agrees with the JS semantics there.
`Math.round` is round-half-up (`⌊x + 1/2⌋`), `Math.floor` is `⌊·⌋`, and the
JS `%` operator is the truncated remainder.
-/

namespace ColorSpec

attribute [local semireducible] Rat.add Rat.mul Rat.sub Rat.inv Rat.ofScientific

/-- The floor of a rational, in a form the kernel evaluates
(`Rat.floor_def` identifies it with `⌊q⌋`). -/
def ratFloor (q : ℚ) : ℤ := q.num / q.den

/-- The ceiling of a rational, kernel-evaluable. -/
def ratCeil (q : ℚ) : ℤ := -ratFloor (-q)

/-- JS `Math.round`: round half towards positive infinity. -/
def jsRound (q : ℚ) : ℚ := ((ratFloor (q + 1/2) : ℤ) : ℚ)

/-- JS `Math.floor`. -/
def jsFloor (q : ℚ) : ℤ := ratFloor q

/-- Truncation towards zero, as used by the JS `%` operator. -/
def jsTrunc (q : ℚ) : ℤ := if 0 ≤ q then ratFloor q else ratCeil q

/-- JS `%`: truncated remainder (sign follows the dividend). -/
def jsMod (x y : ℚ) : ℚ := x - y * (jsTrunc (x / y) : ℚ)

/-- The color-space tags of the library (the `COLOR_TYPES` array). -/
inductive ColorType where
  | rgb | rgba | hsl | hsla | hsv | hsva | hwb | hwba | cmyk
deriving DecidableEq, Repr

/-- A color value: channel list, space tag and alpha (`transparency`). -/
structure Color where
  channels : List ℚ
  type : ColorType
  transparency : ℚ
deriving DecidableEq, Repr

/-- The private constructor: `transparency = alpha || 1`, so a missing alpha
and an alpha of exactly `0` (the only falsy rational; JS also maps `NaN`,
which `ℚ` cannot represent) both become `1`. -/
def mkColor (channels : List ℚ) (type : ColorType) (alpha : Option ℚ) : Color :=
  ⟨channels, type, match alpha with
    | none => 1
    | some a => if a = 0 then 1 else a⟩

/-- Channel access `this.channels[i]`.  Constructed colors always have 3 or 4
channels; out-of-range access (JS `undefined`, which would propagate as `NaN`)
is modelled as `0` and never reached by the verified statements. -/
def ch (c : Color) (i : ℕ) : ℚ := c.channels.getD i 0

/-- Source `Color.rgb(r, g, b)`. -/
def Color.rgb (r g b : ℚ) : Color :=
  mkColor [jsRound r, jsRound g, jsRound b] .rgb none

/-- Source `Color.rgba(r, g, b, a)`. -/
def Color.rgba (r g b a : ℚ) : Color :=
  mkColor [jsRound r, jsRound g, jsRound b] .rgba (some a)

/-- Source `Color.hsl(h, s, l)`. -/
def Color.hsl (h s l : ℚ) : Color :=
  mkColor [jsRound h, jsRound s, jsRound l] .hsl none

/-- Source `Color.hsla(h, s, l, a)`. -/
def Color.hsla (h s l a : ℚ) : Color :=
  mkColor [jsRound h, jsRound s, jsRound l] .hsla (some a)

/-- Source `Color.hsv(h, s, v)`. -/
def Color.hsv (h s v : ℚ) : Color :=
  mkColor [jsRound h, jsRound s, jsRound v] .hsv none

/-- Source `Color.hsva(h, s, v, a)`. -/
def Color.hsva (h s v a : ℚ) : Color :=
  mkColor [jsRound h, jsRound s, jsRound v] .hsva (some a)

/-- Source `Color.hwb(h, w, b)`: rescales whiteness/blackness when their sum
exceeds 100. -/
def Color.hwb (h w b : ℚ) : Color :=
  if w + b > 100 then
    mkColor [jsRound h, jsRound (w / (w + b) * 100), jsRound (b / (w + b) * 100)] .hwb none
  else
    mkColor [jsRound h, jsRound w, jsRound b] .hwb none

/-- Source `Color.hwba(h, w, b, a)`. -/
def Color.hwba (h w b a : ℚ) : Color :=
  if w + b > 100 then
    mkColor [jsRound h, jsRound (w / (w + b) * 100), jsRound (b / (w + b) * 100)] .hwba (some a)
  else
    mkColor [jsRound h, jsRound w, jsRound b] .hwba (some a)

/-- Source `Color.cmyk(c, m, y, k)`. -/
def Color.cmyk (c m y k : ℚ) : Color :=
  mkColor [jsRound c, jsRound m, jsRound y, jsRound k] .cmyk none

/-- The `hue2rgb` helper of the HSL→RGB conversion. -/
def hue2rgb (p q t : ℚ) : ℚ :=
  let t := if t < 0 then t + 1 else t
  let t := if t > 1 then t - 1 else t
  if t < 1/6 then p + (q - p) * 6 * t
  else if t < 1/2 then q
  else if t < 2/3 then p + (q - p) * (2/3 - t) * 6
  else p

/-- Source `rgb()`: conversion from the current type to rgb (the canonical hub).
Each branch is translated literally from the `switch` in `Color.rgb`
(the method) of src/mod.ts; in particular the hsv and hwb branches return
`Color.rgb(r, g, b)` on values in `[0, 1]` without the `* 255` upscaling that
the hsl branch performs, and the cmyk branch divides the cyan channel by 360
and computes its `k` from `channels[2]` (the yellow channel), exactly as the
source does. -/
def Color.toRgb (c : Color) : Color :=
  match c.type with
  | .rgba | .rgb => Color.rgb (ch c 0) (ch c 1) (ch c 2)
  | .hsla | .hsl =>
    let h := ch c 0 / 360
    let s := ch c 1 / 100
    let l := ch c 2 / 100
    if s = 0 then
      Color.rgb (l * 255) (l * 255) (l * 255)
    else
      let q := if l < 1/2 then l * (1 + s) else l + s - l * s
      let p := 2 * l - q
      Color.rgb (hue2rgb p q (h + 1/3) * 255) (hue2rgb p q h * 255)
        (hue2rgb p q (h - 1/3) * 255)
  | .hsva | .hsv =>
    let h := ch c 0 / 360
    let s := ch c 1 / 100
    let v := ch c 2 / 100
    let i : ℤ := jsFloor (h * 6)
    let f := h * 6 - (i : ℚ)
    let p := v * (1 - s)
    let q := v * (1 - f * s)
    let t := v * (1 - (1 - f) * s)
    -- `switch (i % 6)` with JS truncated `%`; a negative remainder matches
    -- no case and keeps the initial `r = g = b = 0`.
    let m := Int.tmod i 6
    if m = 0 then Color.rgb v t p
    else if m = 1 then Color.rgb q v p
    else if m = 2 then Color.rgb p v t
    else if m = 3 then Color.rgb p q v
    else if m = 4 then Color.rgb t p v
    else if m = 5 then Color.rgb v p q
    else Color.rgb 0 0 0
  | .hwba | .hwb =>
    let h := ch c 0 / 360
    let wh0 := ch c 1 / 100
    let bl0 := ch c 2 / 100
    let ratio := wh0 + bl0
    let wh := if ratio > 1 then wh0 / ratio else wh0
    let bl := if ratio > 1 then bl0 / ratio else bl0
    let i : ℤ := jsFloor (6 * h)
    let v := 1 - bl
    let f0 := 6 * h - (i : ℚ)
    -- `(i & 0x01) !== 0`: the low bit of the two's-complement integer,
    -- i.e. `i` is odd.
    let f := if i.emod 2 ≠ 0 then 1 - f0 else f0
    let n := wh + f * (v - wh)
    -- `switch (i)` where `default`, `case 6` and `case 0` share a body.
    if i = 1 then Color.rgb n v wh
    else if i = 2 then Color.rgb wh v n
    else if i = 3 then Color.rgb wh n v
    else if i = 4 then Color.rgb n wh v
    else if i = 5 then Color.rgb v wh n
    else Color.rgb v n wh
  | .cmyk =>
    let c' := ch c 0 / 360
    let m := ch c 1 / 100
    let y := ch c 2 / 100
    let k := ch c 2 / 100
    Color.rgb (255 * (1 - c') * (1 - k)) (255 * (1 - m) * (1 - k))
      (255 * (1 - y) * (1 - k))

/-- Source `rgba()`. -/
def Color.toRgba (c : Color) : Color :=
  if c.type = .rgba then
    Color.rgba (ch c 0) (ch c 1) (ch c 2) c.transparency
  else
    let rgb := c.toRgb
    Color.rgba (ch rgb 0) (ch rgb 1) (ch rgb 2) c.transparency

/-- The RGB→HSL computation shared by `hsl()` for every non-hsl source type;
`r g b` are the raw rgba channels.  The JS `switch (max)` always hits one of
its cases because `max` equals one of `r`, `g`, `b`; the if-chain below takes
the same branch (`case r` first, then `case g`, else `case b`). -/
def rgbToHsl (r0 g0 b0 : ℚ) : Color :=
  let r := r0 / 255
  let g := g0 / 255
  let b := b0 / 255
  let mx := max r (max g b)
  let mn := min r (min g b)
  let l := (mx + mn) / 2
  if mx = mn then
    Color.hsl 0 0 (l * 100)
  else
    let d := mx - mn
    let s := if l > 1/2 then d / (2 - mx - mn) else d / (mx + mn)
    let h :=
      (if mx = r then (g - b) / d + (if g < b then 6 else 0)
       else if mx = g then (b - r) / d + 2
       else (r - g) / d + 4) * 60
    Color.hsl h (s * 100) (l * 100)

/-- Source `hsl()`. -/
def Color.toHsl (c : Color) : Color :=
  if c.type = .hsl then
    Color.hsl (ch c 0) (ch c 1) (ch c 2)
  else
    let rgb := c.toRgba
    rgbToHsl (ch rgb 0) (ch rgb 1) (ch rgb 2)

/-- Source `hsla()`. -/
def Color.toHsla (c : Color) : Color :=
  if c.type = .hsla then
    Color.hsla (ch c 0) (ch c 1) (ch c 2) c.transparency
  else
    let hsl := c.toHsl
    Color.hsla (ch hsl 0) (ch hsl 1) (ch hsl 2) c.transparency

/-- Source `hsv()`.  The `switch (max)` tries `case min` first (achromatic), then
`case r`, `case g`, `case b`; as in `rgbToHsl` the final else is the
`case b` branch. -/
def Color.toHsv (c : Color) : Color :=
  if c.type = .hsv then
    Color.hsv (ch c 0) (ch c 1) (ch c 2)
  else
    let rgb := c.toRgba
    let r := ch rgb 0
    let g := ch rgb 1
    let b := ch rgb 2
    let mx := max r (max g b)
    let mn := min r (min g b)
    let d := mx - mn
    let s := if mx = 0 then 0 else d / mx
    let v := mx / 255
    let h :=
      if mx = mn then 0
      else if mx = r then ((g - b) + d * (if g < b then 6 else 0)) / (6 * d)
      else if mx = g then ((b - r) + d * 2) / (6 * d)
      else ((r - g) + d * 4) / (6 * d)
    Color.hsv (h * 360) (s * 100) (v * 100)

/-- Source `hsva()`. -/
def Color.toHsva (c : Color) : Color :=
  if c.type = .hsva then
    Color.hsva (ch c 0) (ch c 1) (ch c 2) c.transparency
  else
    let hsv := c.toHsv
    Color.hsva (ch hsv 0) (ch hsv 1) (ch hsv 2) c.transparency

/-- Source `hwb()`: the source computes the hsv channels first and then returns the
copied channels when the type is already hwb. -/
def Color.toHwb (c : Color) : Color :=
  let hsv := c.toHsv
  let h := ch hsv 0 / 360
  let s := ch hsv 1 / 100
  let v := ch hsv 2 / 100
  if c.type = .hwb then
    Color.hwb (ch c 0) (ch c 1) (ch c 2)
  else
    Color.hwb (h * 360) ((1 - s) * v * 100) ((1 - v) * 100)

/-- Source `hwba()`. -/
def Color.toHwba (c : Color) : Color :=
  if c.type = .hwba then
    Color.hwba (ch c 0) (ch c 1) (ch c 2) c.transparency
  else
    let hwb := c.toHwb
    Color.hwba (ch hwb 0) (ch hwb 1) (ch hwb 2) c.transparency

/-- Source `cmyk()`.  The `|| 0` guards turn the `0/0` cases (`k = 1` with the
corresponding channel at its maximum) into `0`; division by zero on `ℚ`
already yields `0`, which models exactly that guard. -/
def Color.toCmyk (c : Color) : Color :=
  if c.type = .cmyk then
    Color.cmyk (ch c 0) (ch c 1) (ch c 2) (ch c 3)
  else
    let rgb := c.toRgba
    let r := ch rgb 0 / 255
    let g := ch rgb 1 / 255
    let b := ch rgb 2 / 255
    let k := min (1 - r) (min (1 - g) (1 - b))
    let cy := (1 - r - k) / (1 - k)
    let m := (1 - g - k) / (1 - k)
    let y := (1 - b - k) / (1 - k)
    Color.cmyk (cy * 100) (m * 100) (y * 100) (k * 100)

/-- Source `toType(colorType)`: dispatch to the conversion named by the tag. -/
def Color.toType (c : Color) (t : ColorType) : Color :=
  match t with
  | .rgb => c.toRgb
  | .rgba => c.toRgba
  | .hsl => c.toHsl
  | .hsla => c.toHsla
  | .hsv => c.toHsv
  | .hsva => c.toHsva
  | .hwb => c.toHwb
  | .hwba => c.toHwba
  | .cmyk => c.toCmyk

/-- Source `red()`. -/
def Color.red (c : Color) : ℚ := ch c.toRgb 0

/-- Source `green()`. -/
def Color.green (c : Color) : ℚ := ch c.toRgb 1

/-- Source `blue()`. -/
def Color.blue (c : Color) : ℚ := ch c.toRgb 2

/-- Source `alpha()`. -/
def Color.alpha (c : Color) : ℚ := c.transparency

/-- Source `hue()`. -/
def Color.hue (c : Color) : ℚ := ch c.toHsl 0

/-- Source `setRed(value)`. -/
def Color.setRed (c : Color) (value : ℚ) : Color :=
  let rgb := c.toRgb
  (Color.rgb value (ch rgb 1) (ch rgb 2)).toType c.type

/-- Source `setGreen(value)`. -/
def Color.setGreen (c : Color) (value : ℚ) : Color :=
  let rgb := c.toRgb
  (Color.rgb (ch rgb 0) value (ch rgb 2)).toType c.type

/-- Source `setBlue(value)`. -/
def Color.setBlue (c : Color) (value : ℚ) : Color :=
  let rgb := c.toRgb
  (Color.rgb (ch rgb 0) (ch rgb 1) value).toType c.type

/-- Source `setHue(value)`. -/
def Color.setHue (c : Color) (value : ℚ) : Color :=
  let hsl := c.toHsl
  (Color.hsl value (ch hsl 1) (ch hsl 2)).toType c.type

/-- Source `setSaturation(value)`. -/
def Color.setSaturation (c : Color) (value : ℚ) : Color :=
  let hsl := c.toHsl
  (Color.hsl (ch hsl 0) value (ch hsl 2)).toType c.type

/-- Source `setLightness(value)`. -/
def Color.setLightness (c : Color) (value : ℚ) : Color :=
  let hsl := c.toHsl
  (Color.hsl (ch hsl 0) (ch hsl 1) value).toType c.type

/-- Source `setValue(value)`. -/
def Color.setValue (c : Color) (value : ℚ) : Color :=
  let hsv := c.toHsv
  (Color.hsv (ch hsv 0) (ch hsv 1) value).toType c.type

/-- Source `setWhiteness(value)`. -/
def Color.setWhiteness (c : Color) (value : ℚ) : Color :=
  let hwb := c.toHwb
  (Color.hwb (ch hwb 0) value (ch hwb 2)).toType c.type

/-- Source `setBlackness(value)`. -/
def Color.setBlackness (c : Color) (value : ℚ) : Color :=
  let hwb := c.toHwb
  (Color.hwb (ch hwb 0) (ch hwb 1) value).toType c.type

/-- Source `setCyan(value)`. -/
def Color.setCyan (c : Color) (value : ℚ) : Color :=
  let cmyk := c.toCmyk
  (Color.cmyk value (ch cmyk 1) (ch cmyk 2) (ch cmyk 3)).toType c.type

/-- Source `setMagenta(value)`. -/
def Color.setMagenta (c : Color) (value : ℚ) : Color :=
  let cmyk := c.toCmyk
  (Color.cmyk (ch cmyk 0) value (ch cmyk 2) (ch cmyk 3)).toType c.type

/-- Source `setYellow(value)`. -/
def Color.setYellow (c : Color) (value : ℚ) : Color :=
  let cmyk := c.toCmyk
  (Color.cmyk (ch cmyk 0) (ch cmyk 1) value (ch cmyk 3)).toType c.type

/-- Source `setBlack(value)`. -/
def Color.setBlack (c : Color) (value : ℚ) : Color :=
  let cmyk := c.toCmyk
  (Color.cmyk (ch cmyk 0) (ch cmyk 1) (ch cmyk 2) value).toType c.type

/-- Source `negate()`. -/
def Color.negate (c : Color) : Color :=
  let rgb := c.toRgb
  (Color.rgb (255 - ch rgb 0) (255 - ch rgb 1) (255 - ch rgb 2)).toType c.type

/-- Source `lighten(factor)`. -/
def Color.lighten (c : Color) (factor : ℚ) : Color :=
  let hsl := c.toHsl
  (Color.hsl (ch hsl 0) (ch hsl 1) (ch hsl 2 * (1 + factor))).toType c.type

/-- Source `darken(factor)`. -/
def Color.darken (c : Color) (factor : ℚ) : Color :=
  let hsl := c.toHsl
  (Color.hsl (ch hsl 0) (ch hsl 1) (ch hsl 2 * (1 - factor))).toType c.type

/-- Source `saturate(factor)`. -/
def Color.saturate (c : Color) (factor : ℚ) : Color :=
  let hsl := c.toHsl
  (Color.hsl (ch hsl 0) (ch hsl 1 * (1 + factor)) (ch hsl 2)).toType c.type

/-- Source `desaturate(factor)`. -/
def Color.desaturate (c : Color) (factor : ℚ) : Color :=
  let hsl := c.toHsl
  (Color.hsl (ch hsl 0) (ch hsl 1 * (1 - factor)) (ch hsl 2)).toType c.type

/-- Source `grayscale()`: always returns a plain rgb color. -/
def Color.grayscale (c : Color) : Color :=
  let rgb := c.toRgb
  let gray := (ch rgb 0 + ch rgb 1 + ch rgb 2) / 3
  Color.rgb gray gray gray

/-- The `while (hue < 0) hue += 360` loop of `rotate`, in closed form: the
loop adds 360 to `x` the minimal number of times that makes the value
nonnegative, and for `x < 0` that count is `⌈-x/360⌉` (an integer `k ≥ 0`
satisfies `x + 360k ≥ 0` iff `k ≥ -x/360` iff `k ≥ ⌈-x/360⌉`, which is `≥ 1`
when `x < 0`). -/
def whileAddNonneg (x : ℚ) : ℚ :=
  if x < 0 then x + 360 * ((ratCeil (-x / 360) : ℤ) : ℚ) else x

/-- Source `rotate(value)`: add to the hsl hue, wrap by the while-loop and `%= 360`,
rebuild and convert back to the original type. -/
def Color.rotate (c : Color) (value : ℚ) : Color :=
  let hsl := c.toHsl
  let hue := jsMod (whileAddNonneg (ch hsl 0 + value)) 360
  (Color.hsl hue (ch hsl 1) (ch hsl 2)).toType c.type

/-- Source `mix(mixColor, weight)` (the source defaults `weight` to `1/2`; the
verified statements always pass it explicitly). -/
def Color.mix (c mixColor : Color) (weight : ℚ) : Color :=
  let color1 := mixColor.toRgb
  let color2 := c.toRgb
  let p := weight
  let w := 2 * p - 1
  let a := color1.alpha - color2.alpha
  let w1 := ((if w * a = -1 then w else (w + a) / (1 + w * a)) + 1) / 2
  let w2 := 1 - w1
  (Color.rgba (w1 * color1.red + w2 * color2.red)
    (w1 * color1.green + w2 * color2.green)
    (w1 * color1.blue + w2 * color2.blue)
    (color1.alpha * p + color2.alpha * (1 - p))).toType c.type

/-- Decimal digits of the fractional part `rem/den` by long division,
producing at most `fuel` digits. -/
def decDigitChars : ℕ → ℕ → ℕ → List Char
  | 0, _, _ => []
  | fuel + 1, rem, den =>
    if rem = 0 then []
    else Char.ofNat (48 + rem * 10 / den) :: decDigitChars fuel (rem * 10 % den) den

/-- JS number-to-string conversion (template-literal interpolation `${x}`),
modelled for the values the library stores: an integer prints as its decimal
digits and a finite decimal as its (sign, integer part, fractional digits)
expansion.  All values reaching the formatter in the verified statements are
integers.  (JS prints a general double as its shortest round-tripping
decimal; the cut-off at 20 fractional digits is never reached here.) -/
def jsNumToString (q : ℚ) : String :=
  let sign := if q < 0 then "-" else ""
  let n := q.num.natAbs
  let d := q.den
  let ip := n / d
  let frac := decDigitChars 20 (n % d) d
  sign ++ Nat.repr ip ++ (if frac.isEmpty then "" else "." ++ String.mk frac)

/-- Source `string()`: the canonical CSS formatter, one template per type, straight
from the source; note that the hsla template has no `%` after the lightness
channel. -/
def Color.string (c : Color) : String :=
  match c.type with
  | .cmyk =>
    "cmyk(" ++ jsNumToString (ch c 0) ++ "%, " ++ jsNumToString (ch c 1) ++ "%, " ++
      jsNumToString (ch c 2) ++ "%, " ++ jsNumToString (ch c 3) ++ "%)"
  | .hsl =>
    "hsl(" ++ jsNumToString (ch c 0) ++ ", " ++ jsNumToString (ch c 1) ++ "%, " ++
      jsNumToString (ch c 2) ++ "%)"
  | .hsla =>
    "hsla(" ++ jsNumToString (ch c 0) ++ ", " ++ jsNumToString (ch c 1) ++ "%, " ++
      jsNumToString (ch c 2) ++ ", " ++ jsNumToString c.transparency ++ ")"
  | .hsv =>
    "hsv(" ++ jsNumToString (ch c 0) ++ ", " ++ jsNumToString (ch c 1) ++ "%, " ++
      jsNumToString (ch c 2) ++ "%)"
  | .hsva =>
    "hsva(" ++ jsNumToString (ch c 0) ++ ", " ++ jsNumToString (ch c 1) ++ "%, " ++
      jsNumToString (ch c 2) ++ "%, " ++ jsNumToString c.transparency ++ ")"
  | .hwb =>
    "hwb(" ++ jsNumToString (ch c 0) ++ ", " ++ jsNumToString (ch c 1) ++ "%, " ++
      jsNumToString (ch c 2) ++ "%)"
  | .hwba =>
    "hwba(" ++ jsNumToString (ch c 0) ++ ", " ++ jsNumToString (ch c 1) ++ "%, " ++
      jsNumToString (ch c 2) ++ "%, " ++ jsNumToString c.transparency ++ ")"
  | .rgb =>
    "rgb(" ++ jsNumToString (ch c 0) ++ ", " ++ jsNumToString (ch c 1) ++ ", " ++
      jsNumToString (ch c 2) ++ ")"
  | .rgba =>
    "rgba(" ++ jsNumToString (ch c 0) ++ ", " ++ jsNumToString (ch c 1) ++ ", " ++
      jsNumToString (ch c 2) ++ ", " ++ jsNumToString c.transparency ++ ")"

/-! ### The string parser (`static string(input)`)

JS strings are modelled as `List Char`.  The three regular expressions of the
source are translated operationally: the two hex forms are anchored at both
ends; the functional form `^(rgba?|hsla?|hsva?|hwba?|cmyk)\((.*)\)` is
anchored only at the start, `.` excludes line terminators, and the greedy
`.*` makes `args` run up to the last `)` reachable without crossing a line
terminator. -/

/-- The characters matched by the JS regex class `\s`. -/
def isJsSpace (c : Char) : Bool :=
  c = ' ' || c = '\t' || c = '\n' || c = '\r' ||
  c = Char.ofNat 0x0b || c = Char.ofNat 0x0c || c = Char.ofNat 0xa0 ||
  c = Char.ofNat 0x1680 ||
  (Char.ofNat 0x2000 ≤ c && c ≤ Char.ofNat 0x200a) ||
  c = Char.ofNat 0x2028 || c = Char.ofNat 0x2029 ||
  c = Char.ofNat 0x202f || c = Char.ofNat 0x205f ||
  c = Char.ofNat 0x3000 || c = Char.ofNat 0xfeff

/-- The JS line terminators, which `.` does not match. -/
def isLineTerm (c : Char) : Bool :=
  c = '\n' || c = '\r' || c = Char.ofNat 0x2028 || c = Char.ofNat 0x2029

/-- Source `[0-9a-f]` with the `i` flag. -/
def isHexDigit (c : Char) : Bool :=
  ('0' ≤ c && c ≤ '9') || ('a' ≤ c && c ≤ 'f') || ('A' ≤ c && c ≤ 'F')

/-- The value of a hex digit (`Number.parseInt(digit, 16)`). -/
def hexVal (c : Char) : ℕ :=
  if '0' ≤ c && c ≤ '9' then c.toNat - 48
  else if 'a' ≤ c then c.toNat - 87
  else c.toNat - 55

/-- Source `/^#([0-9a-f]{3})$/i`: each digit is scaled by `0x11`. -/
def parseHex3 (s : List Char) : Option Color :=
  match s with
  | [h, a, b, c] =>
    if h = '#' && isHexDigit a && isHexDigit b && isHexDigit c then
      some (Color.rgb ((hexVal a * 17 : ℕ) : ℚ) ((hexVal b * 17 : ℕ) : ℚ)
        ((hexVal c * 17 : ℕ) : ℚ))
    else none
  | _ => none

/-- Source `/^#([0-9a-f]{6})$/i`: digit pairs. -/
def parseHex6 (s : List Char) : Option Color :=
  match s with
  | [h, a, b, c, d, e, f] =>
    if h = '#' && isHexDigit a && isHexDigit b && isHexDigit c && isHexDigit d &&
        isHexDigit e && isHexDigit f then
      some (Color.rgb ((hexVal a * 16 + hexVal b : ℕ) : ℚ)
        ((hexVal c * 16 + hexVal d : ℕ) : ℚ) ((hexVal e * 16 + hexVal f : ℕ) : ℚ))
    else none
  | _ => none

/-- Strip an exact character sequence from the front. -/
def dropExact (p s : List Char) : Option (List Char) :=
  match p, s with
  | [], rest => some rest
  | _ :: _, [] => none
  | a :: p', b :: s' => if a = b then dropExact p' s' else none

/-- The constructor names in the order the regex alternation
`rgba?|hsla?|hsva?|hwba?|cmyk` tries them (greedy `a?` prefers the long
form).  The regex matches case-insensitively, but the subsequent
case-sensitive `isColorType` check only lets an exactly-lowercase name
through, so the parser as a whole requires these exact character
sequences. -/
def ctorNames : List (List Char × ColorType) :=
  [("rgba".data, .rgba), ("rgb".data, .rgb), ("hsla".data, .hsla),
   ("hsl".data, .hsl), ("hsva".data, .hsva), ("hsv".data, .hsv),
   ("hwba".data, .hwba), ("hwb".data, .hwb), ("cmyk".data, .cmyk)]

/-- Find the constructor name followed by `(` at the start of the input. -/
def findCtor : List (List Char × ColorType) → List Char → Option (ColorType × List Char)
  | [], _ => none
  | (nm, t) :: rest, s =>
    match dropExact (nm ++ ['(']) s with
    | some r => some (t, r)
    | none => findCtor rest s

/-- The prefix of `l` before its last `')'` (`none` when `l` has no `')'`):
this is what the greedy `(.*)\)` captures. -/
def argsUptoLastParen : List Char → Option (List Char)
  | [] => none
  | c :: rest =>
    match argsUptoLastParen rest with
    | some a => some (c :: a)
    | none => if c = ')' then some [] else none

/-- Source `args.split(/\s|,/)`: split at every whitespace-or-comma character,
keeping empty pieces. -/
def splitToks : List Char → List (List Char)
  | [] => [[]]
  | c :: rest =>
    if isJsSpace c || c = ',' then [] :: splitToks rest
    else
      match splitToks rest with
      | t :: ts => (c :: t) :: ts
      | [] => [[c]]

/-- Source `.map(trim).filter(arg => arg && !arg.match(/,|\//i))`: the split pieces
contain no whitespace (every `\s` character is a separator), so `trim` is the
identity here, and no piece can contain `','`; the filter keeps the nonempty
pieces without `'/'`. -/
def filteredToks (args : List Char) : List (List Char) :=
  (splitToks args).filter (fun t => !t.isEmpty && !t.contains '/')

/-- Does `p` occur as a contiguous subsequence (`String.includes`)? -/
def startsWithSeq (p s : List Char) : Bool :=
  match p, s with
  | [], _ => true
  | _ :: _, [] => false
  | a :: p', b :: s' => a = b && startsWithSeq p' s'

/-- Source `String.includes`. -/
def hasSub (p : List Char) : List Char → Bool
  | [] => p.isEmpty
  | c :: rest => startsWithSeq p (c :: rest) || hasSub p rest

/-- Numeric value of a digit run. -/
def natOfDigits (l : List Char) : ℕ :=
  l.foldl (fun acc c => acc * 10 + (c.toNat - 48)) 0

/-- Source `[0-9]`. -/
def isDigitCh (c : Char) : Bool := '0' ≤ c && c ≤ '9'

/-- Source `Number.parseFloat`: longest valid decimal-literal prefix after leading
whitespace; `none` models `NaN` (no digits at all) and the `Infinity`
literal, which `ℚ` cannot represent.  No verified statement depends on a
parsed numeric value, only on how many tokens parse. -/
def jsParseFloat (t : List Char) : Option ℚ :=
  let t1 := t.dropWhile isJsSpace
  let sgn : ℚ := match t1 with
    | '-' :: _ => -1
    | _ => 1
  let t2 : List Char := match t1 with
    | '-' :: r => r
    | '+' :: r => r
    | _ => t1
  let ds := t2.takeWhile isDigitCh
  let r1 := t2.drop ds.length
  let fs : List Char := match r1 with
    | '.' :: r => r.takeWhile isDigitCh
    | _ => []
  let r2 : List Char := match r1 with
    | '.' :: r => r.drop (r.takeWhile isDigitCh).length
    | _ => r1
  if ds.isEmpty && fs.isEmpty then none
  else
    let mantissa : ℚ := (natOfDigits ds : ℚ) + (natOfDigits fs : ℚ) / ((10 ^ fs.length : ℕ) : ℚ)
    let expPart : ℚ := match r2 with
      | 'e' :: '-' :: r | 'E' :: '-' :: r =>
        1 / ((10 ^ natOfDigits (r.takeWhile isDigitCh) : ℕ) : ℚ)
      | 'e' :: '+' :: r | 'E' :: '+' :: r =>
        ((10 ^ natOfDigits (r.takeWhile isDigitCh) : ℕ) : ℚ)
      | 'e' :: r | 'E' :: r =>
        if (r.takeWhile isDigitCh).isEmpty then 1
        else ((10 ^ natOfDigits (r.takeWhile isDigitCh) : ℕ) : ℚ)
      | _ => 1
    some (sgn * mantissa * expPart)

/-- The IEEE-754 double value of `360 / (2 * Math.PI)` (degrees per radian),
written out as the decimal JS prints for it; no verified statement depends
on it. -/
def radFactor : ℚ := 5729577951308232 / 100000000000000

/-- Source `parseNumber`: parse a float and honor a `rad` or `turn` unit suffix.
A `NaN`/`Infinity` parse is modelled as `0` (no verified statement depends
on the value). -/
def parseNumber (t : List Char) : ℚ :=
  let f := (jsParseFloat t).getD 0
  if hasSub "rad".data t then f * radFactor
  else if hasSub "turn".data t then f * 360
  else f

/-- Source `Color[type](...channels)` dispatch.  When only 3 numbers reach a
4-argument constructor the JS alpha is `undefined`, which `alpha || 1` turns
into 1; `List.getD` yields the default `0`, which `mkColor` also turns into
1.  For `cmyk` a missing 4th channel would be `Math.round(undefined) = NaN`,
modelled as `0`; a 4th number passed to a 3-argument constructor is ignored
by both. -/
def applyCtor (t : ColorType) (chs : List ℚ) : Color :=
  match t with
  | .rgb => Color.rgb (chs.getD 0 0) (chs.getD 1 0) (chs.getD 2 0)
  | .rgba => Color.rgba (chs.getD 0 0) (chs.getD 1 0) (chs.getD 2 0) (chs.getD 3 0)
  | .hsl => Color.hsl (chs.getD 0 0) (chs.getD 1 0) (chs.getD 2 0)
  | .hsla => Color.hsla (chs.getD 0 0) (chs.getD 1 0) (chs.getD 2 0) (chs.getD 3 0)
  | .hsv => Color.hsv (chs.getD 0 0) (chs.getD 1 0) (chs.getD 2 0)
  | .hsva => Color.hsva (chs.getD 0 0) (chs.getD 1 0) (chs.getD 2 0) (chs.getD 3 0)
  | .hwb => Color.hwb (chs.getD 0 0) (chs.getD 1 0) (chs.getD 2 0)
  | .hwba => Color.hwba (chs.getD 0 0) (chs.getD 1 0) (chs.getD 2 0) (chs.getD 3 0)
  | .cmyk => Color.cmyk (chs.getD 0 0) (chs.getD 1 0) (chs.getD 2 0) (chs.getD 3 0)

/-- The functional-notation branch of the parser. -/
def parseFunctional (s : List Char) : Option Color :=
  match findCtor ctorNames s with
  | none => none
  | some (t, rest) =>
    let clean := rest.takeWhile (fun c => !isLineTerm c)
    match argsUptoLastParen clean with
    | none => none
    | some args =>
      if args.isEmpty then none
      else
        let toks := filteredToks args
        if toks.length = 3 ∨ toks.length = 4 then
          some (applyCtor t (toks.map parseNumber))
        else none

/-- Source `static string(input)`: try the 3-digit hex, then the 6-digit hex, then
the functional notation; `none` models the thrown `InvalidColorString`
error.  (The source's instance method `string()` is the formatter
`Color.string` above.) -/
def Color.parseString (s : List Char) : Option Color :=
  match parseHex3 s with
  | some c => some c
  | none =>
    match parseHex6 s with
    | some c => some c
    | none => parseFunctional s

/-! ### Specification-side definitions

These follow the words of the specification (not the source) and are compared
against the source-derived definitions above. -/

/-- Modelled from the spec: the per-space CSS format patterns as the
specification lists them, with the single amendment the code forces — the
hsla pattern carries no `%` after its lightness channel
(`hsla(H, S%, L, A)` instead of the spec's `hsla(H, S%, L%, A)`).  Numbers
are the stored channel values, with no rounding or clamping. -/
def specFormat (c : Color) : String :=
  match c.type with
  | .cmyk =>
    "cmyk(" ++ jsNumToString (ch c 0) ++ "%, " ++ jsNumToString (ch c 1) ++ "%, " ++
      jsNumToString (ch c 2) ++ "%, " ++ jsNumToString (ch c 3) ++ "%)"
  | .hsl =>
    "hsl(" ++ jsNumToString (ch c 0) ++ ", " ++ jsNumToString (ch c 1) ++ "%, " ++
      jsNumToString (ch c 2) ++ "%)"
  | .hsla =>
    "hsla(" ++ jsNumToString (ch c 0) ++ ", " ++ jsNumToString (ch c 1) ++ "%, " ++
      jsNumToString (ch c 2) ++ ", " ++ jsNumToString c.transparency ++ ")"
  | .hsv =>
    "hsv(" ++ jsNumToString (ch c 0) ++ ", " ++ jsNumToString (ch c 1) ++ "%, " ++
      jsNumToString (ch c 2) ++ "%)"
  | .hsva =>
    "hsva(" ++ jsNumToString (ch c 0) ++ ", " ++ jsNumToString (ch c 1) ++ "%, " ++
      jsNumToString (ch c 2) ++ "%, " ++ jsNumToString c.transparency ++ ")"
  | .hwb =>
    "hwb(" ++ jsNumToString (ch c 0) ++ ", " ++ jsNumToString (ch c 1) ++ "%, " ++
      jsNumToString (ch c 2) ++ "%)"
  | .hwba =>
    "hwba(" ++ jsNumToString (ch c 0) ++ ", " ++ jsNumToString (ch c 1) ++ "%, " ++
      jsNumToString (ch c 2) ++ "%, " ++ jsNumToString c.transparency ++ ")"
  | .rgb =>
    "rgb(" ++ jsNumToString (ch c 0) ++ ", " ++ jsNumToString (ch c 1) ++ ", " ++
      jsNumToString (ch c 2) ++ ")"
  | .rgba =>
    "rgba(" ++ jsNumToString (ch c 0) ++ ", " ++ jsNumToString (ch c 1) ++ ", " ++
      jsNumToString (ch c 2) ++ ", " ++ jsNumToString c.transparency ++ ")"

/-- Modelled from the spec: the input is a 3-digit hex form. -/
def specHex3 (s : List Char) : Prop :=
  ∃ a b c : Char, s = ['#', a, b, c] ∧
    isHexDigit a = true ∧ isHexDigit b = true ∧ isHexDigit c = true

/-- Modelled from the spec: the input is a 6-digit hex form. -/
def specHex6 (s : List Char) : Prop :=
  ∃ a b c d e f : Char, s = ['#', a, b, c, d, e, f] ∧
    isHexDigit a = true ∧ isHexDigit b = true ∧ isHexDigit c = true ∧
    isHexDigit d = true ∧ isHexDigit e = true ∧ isHexDigit f = true

/-- Modelled from the spec: the argument text yields exactly 3 or 4 numeric
arguments after token filtering. -/
def specArgCountOk (args : List Char) : Prop :=
  (filteredToks args).length = 3 ∨ (filteredToks args).length = 4

/-- Modelled from the spec: the input is exactly a recognized functional
notation `name(args)` with `name` in
{rgb, rgba, hsl, hsla, hsv, hsva, hwb, hwba, cmyk} yielding 3 or 4 numeric
arguments after token filtering. -/
def specFunctionalExact (s : List Char) : Prop :=
  ∃ p ∈ ctorNames, ∃ args : List Char,
    s = p.1 ++ '(' :: (args ++ [')']) ∧ specArgCountOk args

/-- Modelled from the spec: the three input forms the claim says the parser
accepts. -/
def specClaimedForm (s : List Char) : Prop :=
  specHex3 s ∨ specHex6 s ∨ specFunctionalExact s

/-- The functional form as the code actually recognizes it (the amendment):
the notation `name(args)` only has to start the input; the argument text
runs to the last `')'` reachable without crossing a line terminator, so the
text after that `')'` is arbitrary as long as no further `')'` appears
before its first line terminator. -/
def specFunctionalLoose (s : List Char) : Prop :=
  ∃ p ∈ ctorNames, ∃ args trail : List Char,
    s = p.1 ++ '(' :: (args ++ ')' :: trail) ∧
    (∀ c ∈ args, isLineTerm c = false) ∧
    ')' ∉ trail.takeWhile (fun c => !isLineTerm c) ∧
    specArgCountOk args

/-- The amended acceptance condition of the parser. -/
def specAmendedForm (s : List Char) : Prop :=
  specHex3 s ∨ specHex6 s ∨ specFunctionalLoose s


/-! ### Basic lemmas about the JS numeric primitives -/

theorem ratFloor_eq (q : ℚ) : ratFloor q = ⌊q⌋ := Rat.floor_def.symm

theorem ratCeil_eq (q : ℚ) : ratCeil q = ⌈q⌉ := by
  rw [ratCeil, ratFloor_eq, Int.floor_neg, neg_neg]

theorem jsRound_def (q : ℚ) : jsRound q = ((⌊q + 1/2⌋ : ℤ) : ℚ) := by
  rw [jsRound, ratFloor_eq]

theorem jsRound_intCast (n : ℤ) : jsRound ((n : ℤ) : ℚ) = (n : ℚ) := by
  rw [jsRound_def]
  norm_cast
  rw [Int.floor_eq_iff]
  constructor <;> linarith

theorem jsRound_idem (q : ℚ) : jsRound (jsRound q) = jsRound q := jsRound_intCast _

theorem jsRound_nonneg {q : ℚ} (h : 0 ≤ q) : 0 ≤ jsRound q := by
  rw [jsRound_def]
  have h2 : (0 : ℤ) ≤ ⌊q + 1/2⌋ := Int.floor_nonneg.mpr (by linarith)
  exact_mod_cast h2

theorem jsRound_le_of_lt {q : ℚ} {n : ℤ} (h : q < (n : ℚ)) : jsRound q ≤ (n : ℚ) := by
  rw [jsRound_def]
  have h2 : ⌊q + 1/2⌋ < n + 1 := by
    rw [Int.floor_lt]
    push_cast
    linarith
  exact_mod_cast Int.lt_add_one_iff.mp h2

theorem jsRound_le_add_half (q : ℚ) : jsRound q ≤ q + 1/2 := by
  rw [jsRound_def]
  exact Int.floor_le _

/-! ### Type (space tag) lemmas for the conversions -/

theorem toRgb_type (c : Color) : c.toRgb.type = .rgb := by
  obtain ⟨chs, t, a⟩ := c
  cases t <;> simp only [Color.toRgb] <;> (repeat' split) <;> rfl

theorem toRgba_type (c : Color) : c.toRgba.type = .rgba := by
  rw [Color.toRgba]
  split <;> rfl

theorem rgbToHsl_type (r g b : ℚ) : (rgbToHsl r g b).type = .hsl := by
  rw [rgbToHsl]
  repeat' split
  all_goals rfl

theorem toHsl_type (c : Color) : c.toHsl.type = .hsl := by
  rw [Color.toHsl]
  split
  · rfl
  · exact rgbToHsl_type _ _ _

theorem toHsla_type (c : Color) : c.toHsla.type = .hsla := by
  rw [Color.toHsla]
  split <;> rfl

theorem toHsv_type (c : Color) : c.toHsv.type = .hsv := by
  rw [Color.toHsv]
  split <;> rfl

theorem toHsva_type (c : Color) : c.toHsva.type = .hsva := by
  rw [Color.toHsva]
  split <;> rfl

theorem hwb_ctor_type (h w b : ℚ) : (Color.hwb h w b).type = .hwb := by
  rw [Color.hwb]
  split <;> rfl

theorem hwba_ctor_type (h w b a : ℚ) : (Color.hwba h w b a).type = .hwba := by
  rw [Color.hwba]
  split <;> rfl

theorem toHwb_type (c : Color) : c.toHwb.type = .hwb := by
  rw [Color.toHwb]
  split <;> exact hwb_ctor_type _ _ _

theorem toHwba_type (c : Color) : c.toHwba.type = .hwba := by
  rw [Color.toHwba]
  split <;> exact hwba_ctor_type _ _ _ _

theorem toCmyk_type (c : Color) : c.toCmyk.type = .cmyk := by
  rw [Color.toCmyk]
  split <;> rfl

theorem toType_type (c : Color) (t : ColorType) : (c.toType t).type = t := by
  cases t
  · exact toRgb_type c
  · exact toRgba_type c
  · exact toHsl_type c
  · exact toHsla_type c
  · exact toHsv_type c
  · exact toHsva_type c
  · exact toHwb_type c
  · exact toHwba_type c
  · exact toCmyk_type c


/-! ### Claim C1 -/

/-- C1: the claimed RGB→X→RGB round trip within ±1 per channel fails in the
code: `rgb(255,0,0)` through HSV (and likewise HWB) comes back as
`rgb(1,0,0)` because those two conversion branches omit the `*255` upscaling
present in the HSL branch — the red channel is off by 254. -/
theorem claimC1 :
    ((Color.rgb 255 0 0).toHsv).toRgb.channels = [1, 0, 0] ∧
    ((Color.rgb 255 0 0).toHwb).toRgb.channels = [1, 0, 0] ∧
    255 - ch ((Color.rgb 255 0 0).toHsv).toRgb 0 > 1 := by
  decide

/-! ### Claim C2 -/

/-- C2 counterexample: for cmyk(100, 0, 0, 50) the claimed formula gives
rgb(0, 128, 128), but the conversion returns rgb(184, 255, 255): the code
divides the cyan channel by 360 (not 100) and reads its black factor from
`channels[2]` (the yellow channel) instead of `channels[3]`. -/
theorem claimC2_counterexample :
    (Color.cmyk 100 0 0 50).toRgb.channels = [184, 255, 255] ∧
    (Color.cmyk 100 0 0 50).toRgb.channels ≠ [0, 128, 128] := by
  decide

/-- C2 amended: CMYK→RGB computes
`r = 255·(1 − c/360)·(1 − y/100)`, `g = 255·(1 − m/100)·(1 − y/100)`,
`b = 255·(1 − y/100)·(1 − y/100)` on the stored (rounded) channels — the
cyan channel is normalized by 360 and the black factor comes from the stored
yellow channel; the stored black channel is ignored.  Each result channel is
then rounded by the RGB constructor. -/
theorem claimC2 (c m y k : ℚ) :
    (Color.cmyk c m y k).toRgb =
      Color.rgb (255 * (1 - jsRound c / 360) * (1 - jsRound y / 100))
        (255 * (1 - jsRound m / 100) * (1 - jsRound y / 100))
        (255 * (1 - jsRound y / 100) * (1 - jsRound y / 100)) := rfl

/-! ### Claim C4 -/

/-- C4 counterexample: `hwb(0, 99, 101)` stores whiteness 50 and blackness
51, whose sum is 101 > 100 (both halves round upward across `.5`). -/
theorem claimC4_counterexample :
    ch (Color.hwb 0 99 101) 1 + ch (Color.hwb 0 99 101) 2 = 101 ∧
    ¬ (ch (Color.hwb 0 99 101) 1 + ch (Color.hwb 0 99 101) 2 ≤ 100) := by
  decide

/-! ### Claim C6 -/

/-- C6: `rgb(150,10,240).setGreen(100).grayscale().lighten(0.6)` formats to
exactly "rgb(260, 260, 260)" — the unclamped 260 survives into the CSS
string. -/
theorem claimC6 :
    (((Color.rgb 150 10 240).setGreen 100).grayscale.lighten (3/5)).string =
      "rgb(260, 260, 260)" := by
  decide

/-! ### Claim C7 -/

/-- C7 counterexample: an hsla color does not format its lightness with a
trailing `%`: `Color.hsla(1,2,3,1)` prints "hsla(1, 2%, 3, 1)", not the
claimed "hsla(1, 2%, 3%, 1)". -/
theorem claimC7_counterexample :
    (Color.hsla 1 2 3 1).string = "hsla(1, 2%, 3, 1)" ∧
    (Color.hsla 1 2 3 1).string ≠ "hsla(1, 2%, 3%, 1)" := by
  decide

/-- C7 amended: the formatter emits exactly the per-space patterns of the
claim on the stored numeric values with no additional rounding or clamping,
except that the hsla pattern is `hsla(H, S%, L, A)` — no `%` after the
lightness channel. -/
theorem claimC7 (c : Color) : c.string = specFormat c := by
  obtain ⟨chs, t, a⟩ := c
  cases t <;> rfl

/-! ### Claim C5 -/

/-- C5: every manipulator in the claimed list preserves the space tag, and
grayscale always returns an rgb-tagged color. -/
theorem claimC5 (c c2 : Color) (v f d w : ℚ) :
    (c.setRed v).type = c.type ∧
    (c.setGreen v).type = c.type ∧
    (c.setBlue v).type = c.type ∧
    (c.setHue v).type = c.type ∧
    (c.setSaturation v).type = c.type ∧
    (c.setLightness v).type = c.type ∧
    (c.setValue v).type = c.type ∧
    (c.setWhiteness v).type = c.type ∧
    (c.setBlackness v).type = c.type ∧
    (c.setCyan v).type = c.type ∧
    (c.setMagenta v).type = c.type ∧
    (c.setYellow v).type = c.type ∧
    (c.setBlack v).type = c.type ∧
    (c.negate).type = c.type ∧
    (c.lighten f).type = c.type ∧
    (c.darken f).type = c.type ∧
    (c.saturate f).type = c.type ∧
    (c.desaturate f).type = c.type ∧
    (c.rotate d).type = c.type ∧
    (c.mix c2 w).type = c.type ∧
    (c.grayscale).type = ColorType.rgb := by
  refine ⟨toType_type _ _, toType_type _ _, toType_type _ _, toType_type _ _,
    toType_type _ _, toType_type _ _, toType_type _ _, toType_type _ _,
    toType_type _ _, toType_type _ _, toType_type _ _, toType_type _ _,
    toType_type _ _, toType_type _ _, toType_type _ _, toType_type _ _,
    toType_type _ _, toType_type _ _, toType_type _ _, toType_type _ _, rfl⟩

/-! ### Claim C10 -/

/-- C10: constructing an alpha-carrying color with alpha exactly 0 yields a
color whose alpha() is 1, not 0 — `alpha || 1` coerces a supplied 0 to 1. -/
theorem claimC10 (x y z : ℚ) :
    (Color.rgba x y z 0).alpha = 1 ∧
    (Color.hsla x y z 0).alpha = 1 ∧
    (Color.hsva x y z 0).alpha = 1 ∧
    (Color.hwba x y z 0).alpha = 1 := by
  refine ⟨rfl, rfl, rfl, ?_⟩
  rw [Color.hwba]
  split <;> rfl


/-- C4 amended: when `w + b > 100`, `hwb(h,w,b)` (and `hwba`) stores
`whiteness = round(w/(w+b)*100)` and `blackness = round(b/(w+b)*100)` — the
ratio is preserved within rounding — and whiteness + blackness is at most
101 (not 100: both halves can round upward across `.5`). -/
theorem claimC4 (h w b a : ℚ) (hsum : w + b > 100) :
    (Color.hwb h w b).channels =
      [jsRound h, jsRound (w / (w + b) * 100), jsRound (b / (w + b) * 100)] ∧
    ch (Color.hwb h w b) 1 + ch (Color.hwb h w b) 2 ≤ 101 ∧
    (Color.hwba h w b a).channels =
      [jsRound h, jsRound (w / (w + b) * 100), jsRound (b / (w + b) * 100)] ∧
    ch (Color.hwba h w b a) 1 + ch (Color.hwba h w b a) 2 ≤ 101 := by
  have hch : (Color.hwb h w b).channels =
      [jsRound h, jsRound (w / (w + b) * 100), jsRound (b / (w + b) * 100)] := by
    rw [Color.hwb, if_pos hsum]
    rfl
  have hcha : (Color.hwba h w b a).channels =
      [jsRound h, jsRound (w / (w + b) * 100), jsRound (b / (w + b) * 100)] := by
    rw [Color.hwba, if_pos hsum]
    rfl
  have hpos : (0 : ℚ) < w + b := by linarith
  have hsplit : w / (w + b) * 100 + b / (w + b) * 100 = 100 := by
    field_simp
    ring
  have h1 := jsRound_le_add_half (w / (w + b) * 100)
  have h2 := jsRound_le_add_half (b / (w + b) * 100)
  have hkey : jsRound (w / (w + b) * 100) + jsRound (b / (w + b) * 100) ≤ 101 := by
    linarith
  refine ⟨hch, ?_, hcha, ?_⟩
  · rw [ch, ch, hch]
    simpa using hkey
  · rw [ch, ch, hcha]
    simpa using hkey

theorem toRgb_rgbCtor (x y z : ℚ) :
    (Color.rgb x y z).toRgb = Color.rgb (jsRound x) (jsRound y) (jsRound z) := rfl

theorem alpha_rgbCtor (x y z : ℚ) : (Color.rgb x y z).alpha = 1 := rfl

theorem red_rgbCtor (x y z : ℚ) : (Color.rgb x y z).red = jsRound (jsRound x) := rfl

theorem green_rgbCtor (x y z : ℚ) : (Color.rgb x y z).green = jsRound (jsRound y) := rfl

theorem blue_rgbCtor (x y z : ℚ) : (Color.rgb x y z).blue = jsRound (jsRound z) := rfl

theorem type_rgbCtor (x y z : ℚ) : (Color.rgb x y z).type = .rgb := rfl

/-- Witness for claimC4 at `hwb(0, 99, 101)` (and alpha 1/2 for hwba). -/
theorem claimC4_witness :
    ((99 : ℚ) + 101 > 100) ∧
    ((Color.hwb 0 99 101).channels =
        [jsRound 0, jsRound (99 / (99 + 101) * 100), jsRound (101 / (99 + 101) * 100)] ∧
      ch (Color.hwb 0 99 101) 1 + ch (Color.hwb 0 99 101) 2 ≤ 101 ∧
      (Color.hwba 0 99 101 (1/2)).channels =
        [jsRound 0, jsRound (99 / (99 + 101) * 100), jsRound (101 / (99 + 101) * 100)] ∧
      ch (Color.hwba 0 99 101 (1/2)) 1 + ch (Color.hwba 0 99 101 (1/2)) 2 ≤ 101) :=
  ⟨by norm_num, claimC4 0 99 101 (1/2) (by norm_num)⟩

/-- C3 counterexample: mixing `hsl(100, 50, 0)` with itself (weight 1/2)
yields `hsl(0, 0, 0)`, not the original color: `mix` converts through RGB
(losing hue and saturation of a black hsl color) and resets alpha to 1. -/
theorem claimC3_counterexample :
    (Color.hsl 100 50 0).mix (Color.hsl 100 50 0) (1/2) ≠ Color.hsl 100 50 0 ∧
    (Color.hsl 100 50 0).mix (Color.hsl 100 50 0) (1/2) = Color.hsl 0 0 0 := by
  decide

/-- C8 counterexample: rotating `hsl(359, 50, 50)` by 0.6 degrees gives a
color whose hue is exactly 360, outside the claimed half-open interval
[0, 360): the wrapped hue 359.6 is rounded up to 360 by the hsl
constructor. -/
theorem claimC8_counterexample :
    ((Color.hsl 359 50 50).rotate (3/5)).hue = 360 ∧
    ¬ (((Color.hsl 359 50 50).rotate (3/5)).hue < 360) := by
  decide

/-- C3 amended: for every rgb-space color (whose alpha is 1 by
construction) and every weight, mixing the color with itself yields the
color itself. -/
theorem claimC3 (r g b w : ℚ) :
    (Color.rgb r g b).mix (Color.rgb r g b) w = Color.rgb r g b := by
  simp only [Color.mix, toRgb_rgbCtor, alpha_rgbCtor, red_rgbCtor, green_rgbCtor,
    blue_rgbCtor, type_rgbCtor, jsRound_idem, sub_self, mul_zero, add_zero, zero_add,
    div_one]
  rw [if_neg (by norm_num : ¬((0:ℚ) = -1))]
  rw [show ∀ X : ℚ, (2*w-1+1)/2 * X + (1 - (2*w-1+1)/2) * X = X from fun X => by ring]
  rw [show (1:ℚ) * w + 1 * (1 - w) = 1 from by ring]
  have hmixX : ∀ X : ℚ, w * X + (1 - w) * X = X := fun X => by ring
  simp [Color.toType, Color.toRgb, Color.rgb, Color.rgba, mkColor, ch, jsRound_idem, hmixX]


/-! ### Hue bounds for C8 -/

theorem jsMod_nonneg_lt {x : ℚ} (hx : 0 ≤ x) : 0 ≤ jsMod x 360 ∧ jsMod x 360 < 360 := by
  have hq : 0 ≤ x / 360 := by positivity
  rw [jsMod, jsTrunc, if_pos hq, ratFloor_eq]
  have h1 : ((⌊x / 360⌋ : ℤ) : ℚ) ≤ x / 360 := Int.floor_le _
  have h2 : x / 360 < (⌊x / 360⌋ : ℚ) + 1 := Int.lt_floor_add_one _
  have h1' : 360 * ((⌊x / 360⌋ : ℤ) : ℚ) ≤ x := by
    have := mul_le_mul_of_nonneg_left h1 (by norm_num : (0:ℚ) ≤ 360)
    rw [show (360:ℚ) * (x / 360) = x from by ring] at this
    exact this
  have h2' : x < 360 * ((⌊x / 360⌋ : ℤ) : ℚ) + 360 := by
    have := mul_lt_mul_of_pos_left h2 (by norm_num : (0:ℚ) < 360)
    rw [show (360:ℚ) * (x / 360) = x from by ring] at this
    linarith
  constructor <;> linarith

theorem whileAddNonneg_nonneg (x : ℚ) : 0 ≤ whileAddNonneg x := by
  rw [whileAddNonneg]
  split
  · next h =>
    rw [ratCeil_eq]
    have hle : -x / 360 ≤ ((⌈-x / 360⌉ : ℤ) : ℚ) := Int.le_ceil _
    have := mul_le_mul_of_nonneg_left hle (by norm_num : (0:ℚ) ≤ 360)
    rw [show (360:ℚ) * (-x / 360) = -x from by ring] at this
    linarith
  · next h => linarith

theorem toHsl_hslCtor (h s l : ℚ) :
    (Color.hsl h s l).toHsl = Color.hsl (jsRound h) (jsRound s) (jsRound l) := rfl

theorem hue_hslCtor (h s l : ℚ) : (Color.hsl h s l).hue = jsRound (jsRound h) := rfl

theorem rgbToHsl_hue_mem (r0 g0 b0 : ℚ) :
    0 ≤ ch (rgbToHsl r0 g0 b0) 0 ∧ ch (rgbToHsl r0 g0 b0) 0 ≤ 360 := by
  rw [rgbToHsl]
  set r := r0 / 255 with hr
  set g := g0 / 255 with hg
  set b := b0 / 255 with hb
  by_cases hmm : max r (max g b) = min r (min g b)
  · simp only [if_pos hmm]
    have h0 : jsRound (0:ℚ) = 0 := by decide
    constructor
    · show (0:ℚ) ≤ jsRound 0
      rw [h0]
    · show jsRound (0:ℚ) ≤ 360
      rw [h0]
      norm_num
  · simp only [if_neg hmm]
    have hrle : r ≤ max r (max g b) := le_max_left _ _
    have hgle : g ≤ max r (max g b) := le_trans (le_max_left _ _) (le_max_right _ _)
    have hble : b ≤ max r (max g b) := le_trans (le_max_right _ _) (le_max_right _ _)
    have hrge : min r (min g b) ≤ r := min_le_left _ _
    have hgge : min r (min g b) ≤ g := le_trans (min_le_right _ _) (min_le_left _ _)
    have hbge : min r (min g b) ≤ b := le_trans (min_le_right _ _) (min_le_right _ _)
    have hd : 0 < max r (max g b) - min r (min g b) :=
      sub_pos.mpr (lt_of_le_of_ne (le_trans hrge hrle) (Ne.symm hmm))
    set mx := max r (max g b)
    set mn := min r (min g b)
    have hch : ∀ X s l : ℚ, ch (Color.hsl X s l) 0 = jsRound X := fun X s l => rfl
    rw [hch]
    have hdivb : ∀ x y : ℚ, mn ≤ x → x ≤ mx → mn ≤ y → y ≤ mx →
        -1 ≤ (x - y) / (mx - mn) ∧ (x - y) / (mx - mn) ≤ 1 := by
      intro x y h1 h2 h3 h4
      rw [le_div_iff₀ hd, div_le_iff₀ hd]
      constructor <;> linarith
    have hbound : 0 ≤ (if mx = r then (g - b) / (mx - mn) + (if g < b then 6 else 0)
          else if mx = g then (b - r) / (mx - mn) + 2
          else (r - g) / (mx - mn) + 4) * 60 ∧
        (if mx = r then (g - b) / (mx - mn) + (if g < b then 6 else 0)
          else if mx = g then (b - r) / (mx - mn) + 2
          else (r - g) / (mx - mn) + 4) * 60 < 360 := by
      split_ifs with h1 h2 h3
      · -- mx = r, g < b
        obtain ⟨hlo, _⟩ := hdivb g b hgge hgle hbge hble
        have hup : (g - b) / (mx - mn) < 0 :=
          div_neg_of_neg_of_pos (by linarith) hd
        constructor <;> linarith
      · -- mx = r, g ≥ b
        obtain ⟨_, hhi⟩ := hdivb g b hgge hgle hbge hble
        have hlo : 0 ≤ (g - b) / (mx - mn) :=
          div_nonneg (by linarith) hd.le
        constructor <;> linarith
      · -- mx = g
        obtain ⟨hlo, hhi⟩ := hdivb b r hbge hble hrge hrle
        constructor <;> linarith
      · -- mx = b (the residual case)
        obtain ⟨hlo, hhi⟩ := hdivb r g hrge hrle hgge hgle
        constructor <;> linarith
    refine ⟨jsRound_nonneg hbound.1, ?_⟩
    have := @jsRound_le_of_lt _ 360 (by exact_mod_cast hbound.2)
    exact_mod_cast this

theorem hue_bounds_of_type_ne_hsl (x : Color) (hx : ¬ x.type = ColorType.hsl) :
    0 ≤ x.hue ∧ x.hue ≤ 360 := by
  rw [Color.hue, Color.toHsl, if_neg hx]
  exact rgbToHsl_hue_mem _ _ _

/-- C8 amended: for every color and every degree value (negative and
fractional included), the hue of `c.rotate(d)` lies in the closed interval
[0, 360] — the bound 360 is attained (see the counterexample), so the
claimed half-open interval [0, 360) must be closed on the right. -/
theorem claimC8 (c : Color) (d : ℚ) :
    0 ≤ (c.rotate d).hue ∧ (c.rotate d).hue ≤ 360 := by
  by_cases hty : c.type = ColorType.hsl
  · set hup := jsMod (whileAddNonneg (ch c.toHsl 0 + d)) 360 with hhup
    have hmem : 0 ≤ hup ∧ hup < 360 := jsMod_nonneg_lt (whileAddNonneg_nonneg _)
    have hcalc : (c.rotate d).hue = jsRound hup := by
      show ((Color.hsl hup (ch c.toHsl 1) (ch c.toHsl 2)).toType c.type).hue = jsRound hup
      rw [hty]
      show ((Color.hsl hup (ch c.toHsl 1) (ch c.toHsl 2)).toHsl).hue = jsRound hup
      rw [toHsl_hslCtor, hue_hslCtor, jsRound_idem, jsRound_idem]
    rw [hcalc]
    refine ⟨jsRound_nonneg hmem.1, ?_⟩
    have := @jsRound_le_of_lt hup 360 (by exact_mod_cast hmem.2)
    exact_mod_cast this
  · have htype : (c.rotate d).type = c.type := toType_type _ _
    exact hue_bounds_of_type_ne_hsl _ (by rw [htype]; exact hty)


/-! ### List lemmas for the parser equivalence (C9) -/

theorem dropExact_eq_some {p s r : List Char} :
    dropExact p s = some r ↔ s = p ++ r := by
  induction p generalizing s with
  | nil =>
    simp [dropExact]
  | cons a p' ih =>
    cases s with
    | nil => simp [dropExact]
    | cons b s' =>
      rw [dropExact]
      by_cases hab : a = b
      · subst hab
        simp [ih]
      · rw [if_neg hab]
        simp [Ne.symm hab]

theorem dropExact_self (p r : List Char) : dropExact p (p ++ r) = some r :=
  dropExact_eq_some.mpr rfl

theorem argsUpto_sound {l a : List Char} (h : argsUptoLastParen l = some a) :
    ∃ t, l = a ++ ')' :: t ∧ ')' ∉ t := by
  induction l generalizing a with
  | nil => simp [argsUptoLastParen] at h
  | cons c rest ih =>
    rw [argsUptoLastParen] at h
    cases hrec : argsUptoLastParen rest with
    | some a' =>
      rw [hrec] at h
      obtain ⟨t, ht, hnt⟩ := ih hrec
      cases h
      exact ⟨t, by rw [ht]; rfl, hnt⟩
    | none =>
      rw [hrec] at h
      by_cases hc : c = ')'
      · subst hc
        rw [if_pos rfl] at h
        cases h
        refine ⟨rest, rfl, ?_⟩
        intro hmem
        -- if rest contained ')', argsUptoLastParen rest could not be none
        clear ih
        induction rest with
        | nil => simp at hmem
        | cons d rest' ih2 =>
          rw [argsUptoLastParen] at hrec
          cases hrec2 : argsUptoLastParen rest' with
          | some _ => rw [hrec2] at hrec; cases hrec
          | none =>
            rw [hrec2] at hrec
            rcases List.mem_cons.mp hmem with h1 | h1
            · rw [← h1] at hrec
              rw [if_pos rfl] at hrec
              cases hrec
            · exact ih2 hrec2 h1
      · rw [if_neg hc] at h
        cases h

theorem argsUpto_none_of_no_paren {l : List Char} (h : ')' ∉ l) :
    argsUptoLastParen l = none := by
  induction l with
  | nil => rfl
  | cons c rest ih =>
    rw [argsUptoLastParen]
    have hc : c ≠ ')' := fun hc => h (hc ▸ List.mem_cons_self c rest)
    rw [ih (fun hm => h (List.mem_cons_of_mem c hm))]
    rw [if_neg hc]

theorem argsUpto_complete (a t : List Char) (h : ')' ∉ t) :
    argsUptoLastParen (a ++ ')' :: t) = some a := by
  induction a with
  | nil =>
    rw [List.nil_append, argsUptoLastParen, argsUpto_none_of_no_paren h, if_pos rfl]
  | cons c a' ih =>
    rw [List.cons_append, argsUptoLastParen, ih]

theorem takeWhile_append_of_all {p : Char → Bool} {xs ys : List Char}
    (h : ∀ x ∈ xs, p x = true) :
    (xs ++ ys).takeWhile p = xs ++ ys.takeWhile p := by
  induction xs with
  | nil => simp
  | cons x xs' ih =>
    rw [List.cons_append, List.takeWhile_cons, h x (List.mem_cons_self _ _),
      ih (fun y hy => h y (List.mem_cons_of_mem _ hy))]
    simp

theorem mem_takeWhile_pred {p : Char → Bool} {l : List Char} {x : Char}
    (h : x ∈ l.takeWhile p) : p x = true := by
  induction l with
  | nil => simp at h
  | cons c rest ih =>
    rw [List.takeWhile_cons] at h
    by_cases hc : p c = true
    · rw [if_pos hc] at h
      rcases List.mem_cons.mp h with h1 | h1
      · rwa [h1]
      · exact ih h1
    · rw [if_neg hc] at h
      simp at h

theorem dropWhile_shape (p : Char → Bool) (l : List Char) :
    l.dropWhile p = [] ∨ ∃ h t, l.dropWhile p = h :: t ∧ p h = false := by
  induction l with
  | nil => left; rfl
  | cons c rest ih =>
    rw [List.dropWhile_cons]
    by_cases hc : p c = true
    · rw [if_pos hc]
      exact ih
    · rw [if_neg hc]
      right
      exact ⟨c, rest, rfl, by simpa using hc⟩


theorem findCtor_sound {L : List (List Char × ColorType)} {s : List Char}
    {t : ColorType} {rest : List Char} (h : findCtor L s = some (t, rest)) :
    ∃ nm, (nm, t) ∈ L ∧ s = nm ++ '(' :: rest := by
  induction L with
  | nil => simp [findCtor] at h
  | cons p L' ih =>
    obtain ⟨nm, t'⟩ := p
    rw [findCtor] at h
    cases hd : dropExact (nm ++ ['(']) s with
    | some r =>
      rw [hd] at h
      cases h
      have hs := dropExact_eq_some.mp hd
      refine ⟨nm, List.mem_cons_self _ _, ?_⟩
      rw [hs, List.append_assoc]
      rfl
    | none =>
      rw [hd] at h
      obtain ⟨nm2, hm, hs⟩ := ih h
      exact ⟨nm2, List.mem_cons_of_mem _ hm, hs⟩

theorem specArgCountOk_nil_false : ¬ specArgCountOk [] := by
  rw [specArgCountOk]
  decide

theorem parseFunctional_isSome_iff (s : List Char) :
    (parseFunctional s).isSome = true ↔ specFunctionalLoose s := by
  constructor
  · intro h
    rw [parseFunctional] at h
    cases hf : findCtor ctorNames s with
    | none => rw [hf] at h; simp at h
    | some pr =>
      obtain ⟨t, rest⟩ := pr
      rw [hf] at h
      dsimp only [] at h
      cases ha : argsUptoLastParen (rest.takeWhile (fun c => !isLineTerm c)) with
      | none => rw [ha] at h; simp at h
      | some args =>
        rw [ha] at h
        dsimp only [] at h
        obtain ⟨nm, hmem, hs⟩ := findCtor_sound hf
        obtain ⟨t0, hclean, hnp⟩ := argsUpto_sound ha
        split_ifs at h with h1 h2
        · simp at h
        · -- success branch: h2 : length = 3 or 4
          refine ⟨(nm, t), hmem, args,
            t0 ++ rest.dropWhile (fun c => !isLineTerm c), ?_, ?_, ?_, h2⟩
          · rw [hs]
            have hd2 : rest = args ++ ')' :: (t0 ++ rest.dropWhile (fun c => !isLineTerm c)) := by
              conv_lhs => rw [← List.takeWhile_append_dropWhile (fun c => !isLineTerm c) rest]
              rw [hclean]
              simp
            rw [← hd2]
          · intro c hc
            have hmem2 : c ∈ rest.takeWhile (fun c => !isLineTerm c) := by
              rw [hclean]
              exact List.mem_append_left _ hc
            have := mem_takeWhile_pred hmem2
            simpa using this
          · have hall : ∀ x ∈ t0, (fun c => !isLineTerm c) x = true := by
              intro x hx
              have hx2 : x ∈ List.takeWhile (fun c => !isLineTerm c) rest := by
                rw [hclean]
                exact List.mem_append_right _ (List.mem_cons_of_mem _ hx)
              exact mem_takeWhile_pred hx2
            rw [takeWhile_append_of_all hall]
            rcases dropWhile_shape (fun c => !isLineTerm c) rest with hsh | ⟨hh, tt, hsh, hph⟩
            · rw [hsh]
              simpa using hnp
            · rw [hsh, List.takeWhile_cons, hph]
              simpa using hnp
        · simp at h
  · rintro ⟨p, hmem, args, trail, hs, hclean, htrail, hcount⟩
    have hne : args ≠ [] := by
      rintro rfl
      exact specArgCountOk_nil_false hcount
    have hall : ∀ x ∈ args, (fun c => !isLineTerm c) x = true := by
      intro x hx
      show (!isLineTerm x) = true
      rw [hclean x hx]
      rfl
    have htw : (args ++ ')' :: trail).takeWhile (fun c => !isLineTerm c) =
        args ++ ')' :: trail.takeWhile (fun c => !isLineTerm c) := by
      rw [takeWhile_append_of_all hall, List.takeWhile_cons,
        if_pos (show (fun c => !isLineTerm c) ')' = true by decide)]
    have hnemp : args.isEmpty = false := by
      cases args with
      | nil => exact absurd rfl hne
      | cons _ _ => rfl
    have hcount' : (filteredToks args).length = 3 ∨ (filteredToks args).length = 4 := hcount
    have key : ∀ (nm : List Char) (t : ColorType),
        findCtor ctorNames (nm ++ '(' :: (args ++ ')' :: trail)) = some (t, args ++ ')' :: trail) →
        (parseFunctional (nm ++ '(' :: (args ++ ')' :: trail))).isSome = true := by
      intro nm t hfind
      rw [parseFunctional, hfind]
      dsimp only []
      rw [htw, argsUpto_complete _ _ htrail]
      dsimp only []
      rw [hnemp]
      rw [if_neg (by simp : ¬ false = true)]
      rw [if_pos hcount']
      rfl
    simp only [ctorNames, List.mem_cons, List.not_mem_nil, or_false] at hmem
    rcases hmem with rfl | rfl | rfl | rfl | rfl | rfl | rfl | rfl | rfl <;>
    · subst hs
      exact key _ _ rfl

theorem parseHex3_isSome_iff (s : List Char) :
    (parseHex3 s).isSome = true ↔ specHex3 s := by
  rcases s with _ | ⟨c0, _ | ⟨c1, _ | ⟨c2, _ | ⟨c3, _ | ⟨c4, s'⟩⟩⟩⟩⟩
  · simp [parseHex3, specHex3]
  · simp [parseHex3, specHex3]
  · simp [parseHex3, specHex3]
  · simp [parseHex3, specHex3]
  · rw [show parseHex3 [c0, c1, c2, c3] =
        (if c0 = '#' && isHexDigit c1 && isHexDigit c2 && isHexDigit c3 then
          some (Color.rgb ((hexVal c1 * 17 : ℕ) : ℚ) ((hexVal c2 * 17 : ℕ) : ℚ)
            ((hexVal c3 * 17 : ℕ) : ℚ))
        else none) from rfl]
    constructor
    · intro h
      by_cases hcond : (c0 = '#' && isHexDigit c1 && isHexDigit c2 && isHexDigit c3) = true
      · simp only [Bool.and_eq_true, decide_eq_true_eq] at hcond
        exact ⟨c1, c2, c3, by rw [hcond.1.1.1], hcond.1.1.2, hcond.1.2, hcond.2⟩
      · rw [if_neg hcond] at h
        simp at h
    · rintro ⟨a, b, c, heq, h1, h2, h3⟩
      simp only [List.cons.injEq, and_true] at heq
      obtain ⟨hc0, ha, hb, hc⟩ := heq
      subst hc0; subst ha; subst hb; subst hc
      rw [if_pos (by simp [h1, h2, h3])]
      rfl
  · constructor
    · intro h
      simp [parseHex3] at h
    · rintro ⟨a, b, c, heq, -, -, -⟩
      have hl := congrArg List.length heq
      simp at hl

theorem parseHex6_isSome_iff (s : List Char) :
    (parseHex6 s).isSome = true ↔ specHex6 s := by
  rcases s with _ | ⟨c0, _ | ⟨c1, _ | ⟨c2, _ | ⟨c3, _ | ⟨c4, _ | ⟨c5, _ | ⟨c6, _ | ⟨c7, s'⟩⟩⟩⟩⟩⟩⟩⟩
  · simp [parseHex6, specHex6]
  · simp [parseHex6, specHex6]
  · simp [parseHex6, specHex6]
  · simp [parseHex6, specHex6]
  · simp [parseHex6, specHex6]
  · simp [parseHex6, specHex6]
  · simp [parseHex6, specHex6]
  · rw [show parseHex6 [c0, c1, c2, c3, c4, c5, c6] =
        (if c0 = '#' && isHexDigit c1 && isHexDigit c2 && isHexDigit c3 && isHexDigit c4 &&
            isHexDigit c5 && isHexDigit c6 then
          some (Color.rgb ((hexVal c1 * 16 + hexVal c2 : ℕ) : ℚ)
            ((hexVal c3 * 16 + hexVal c4 : ℕ) : ℚ) ((hexVal c5 * 16 + hexVal c6 : ℕ) : ℚ))
        else none) from rfl]
    constructor
    · intro h
      by_cases hcond : (c0 = '#' && isHexDigit c1 && isHexDigit c2 && isHexDigit c3 &&
          isHexDigit c4 && isHexDigit c5 && isHexDigit c6) = true
      · simp only [Bool.and_eq_true, decide_eq_true_eq] at hcond
        exact ⟨c1, c2, c3, c4, c5, c6, by rw [hcond.1.1.1.1.1.1],
          hcond.1.1.1.1.1.2, hcond.1.1.1.1.2, hcond.1.1.1.2, hcond.1.1.2, hcond.1.2, hcond.2⟩
      · rw [if_neg hcond] at h
        simp at h
    · rintro ⟨a, b, c, d, e, f, heq, h1, h2, h3, h4, h5, h6⟩
      simp only [List.cons.injEq, and_true] at heq
      obtain ⟨hc0, ha, hb, hc, hd, he, hf⟩ := heq
      subst hc0; subst ha; subst hb; subst hc; subst hd; subst he; subst hf
      rw [if_pos (by simp [h1, h2, h3, h4, h5, h6])]
      rfl
  · constructor
    · intro h
      simp [parseHex6] at h
    · rintro ⟨a, b, c, d, e, f, heq, -, -, -, -, -, -⟩
      have hl := congrArg List.length heq
      simp at hl

theorem parseString_isSome_iff (s : List Char) :
    (Color.parseString s).isSome = true ↔ specAmendedForm s := by
  have H3 := parseHex3_isSome_iff s
  have H6 := parseHex6_isSome_iff s
  have HF := parseFunctional_isSome_iff s
  rw [Color.parseString, specAmendedForm]
  cases h3 : parseHex3 s with
  | some c =>
    dsimp only []
    constructor
    · intro _
      refine Or.inl (H3.mp ?_)
      rw [h3]
      rfl
    · intro _
      rfl
  | none =>
    have hn3 : ¬ specHex3 s := by
      intro hc
      have h' := H3.mpr hc
      rw [h3] at h'
      simp at h'
    dsimp only []
    cases h6 : parseHex6 s with
    | some c =>
      dsimp only []
      constructor
      · intro _
        refine Or.inr (Or.inl (H6.mp ?_))
        rw [h6]
        rfl
      · intro _
        rfl
    | none =>
      have hn6 : ¬ specHex6 s := by
        intro hc
        have h' := H6.mpr hc
        rw [h6] at h'
        simp at h'
      dsimp only []
      rw [HF]
      constructor
      · exact fun h => Or.inr (Or.inr h)
      · rintro (h | h | h)
        · exact absurd h hn3
        · exact absurd h hn6
        · exact h

/-- C9 amended: the parser fails (raises `InvalidColorString`) exactly when
the input is none of: a 3-digit hex form, a 6-digit hex form, or a
functional notation `name(args)` that (amendment) only has to START the
input — the regex is unanchored on the right, so arbitrary text may follow
the closing parenthesis, the argument text runs to the last `')'` reachable
without crossing a line terminator, and no further `')'` may precede the
first line terminator of the trailing text.  Every other operation of the
library is a total function in this embedding (the parser is the only
`Option`-valued definition), matching the claim's final clause. -/
theorem claimC9 (s : List Char) :
    Color.parseString s = none ↔ ¬ specAmendedForm s := by
  rw [← parseString_isSome_iff s]
  cases Color.parseString s <;> simp

/-- C9 counterexample: the input `rgb(1,2,3)x` parses successfully (the
functional regex is not anchored at the end of the string), yet it matches
none of the three forms the claim allows — so "errors exactly when the input
matches none of the forms" is false as stated. -/
theorem claimC9_counterexample :
    (Color.parseString ['r','g','b','(','1',',','2',',','3',')','x']).isSome = true ∧
    ¬ specClaimedForm ['r','g','b','(','1',',','2',',','3',')','x'] := by
  constructor
  · decide
  · rintro (⟨a, b, c, h, -, -, -⟩ | ⟨a, b, c, d, e, f, h, -, -, -, -, -, -⟩ |
      ⟨p, hmem, args, hs, -⟩)
    · have hl := congrArg List.length h
      simp at hl
    · have hl := congrArg List.length h
      simp at hl
    · have h2 : (['r','g','b','(','1',',','2',',','3',')','x'] : List Char) =
          (p.1 ++ '(' :: args) ++ [')'] := by
        rw [hs]
        simp
      have h3 := congrArg List.getLast? h2
      rw [List.getLast?_concat] at h3
      rw [show (['r','g','b','(','1',',','2',',','3',')','x'] : List Char).getLast? =
        some 'x' from rfl] at h3
      simp at h3

end ColorSpec
